import Mathlib

/-!
Shallow embedding of `src/index.ts` of the client-vector-search package.

The source is TypeScript running on a JavaScript engine.  The embedding models:
* JS runtime values (numbers as exact rationals, NaN, strings, null, undefined,
  arrays) and the coercions the source exercises (`isNaN`, strict equality);
* the `EmbeddingIndex` class: `validateAndAdd`, `add`, `update`, `remove`,
  `removeBatch`, `get`, `search`;
* the `cosineSimilarity` function, with the floating-point square root and the
  `toFixed`-rounding abstracted as explicit function parameters (`rsqrt`,
  `roundp`) — every theorem below holds for an arbitrary choice of these, with
  any property that the real operations satisfy stated as a hypothesis;
* the `DynamicDB` persistence layer over the module-level fresh `IDBFactory`,
  with the asynchronous insertions modelled by an explicit `pending` queue:
  the synchronous part of `addToDB` validates and issues the request, and the
  event loop settling the queued readwrite transactions is the separate
  `settlePending` step (IndexedDB runs transactions of overlapping scope in
  creation order, so every pending insertion settles before a transaction
  created later reads the store).

Stateful methods are embedded as `state → result × state` functions, so that a
method that throws is still recorded together with the state it leaves behind.
-/

namespace ClientVectorSearch

/-- JS runtime values occurring in this library: numbers (exact rationals; the
NaN value is a separate constructor since `NaN === NaN` is false and `isNaN`
detects it), strings, `null`, `undefined` and arrays. -/
inductive Value where
  | num (q : ℚ)
  | nan
  | str (s : String)
  | null
  | undefined
  | arr (elems : List Value)

/-- A JS object, as an ordered list of (field name, value) pairs.  JS object
literals have unique keys; field lookup takes the first occurrence. -/
abbrev JSObject := List (String × Value)

/-- The expression `obj[key]`: the value of field `key`, `undefined` when the
field is absent. -/
def fieldOf (obj : JSObject) (key : String) : Value :=
  match obj.find? (fun p => p.1 == key) with
  | some p => p.2
  | none => .undefined

/-- The expression `key in obj`: field presence. -/
def hasKey (obj : JSObject) (key : String) : Bool :=
  obj.any (fun p => p.1 == key)

/-- The expression `Object.keys(obj)`: the field names in insertion order. -/
def objKeys (obj : JSObject) : List String :=
  obj.map (fun p => p.1)

/-- Simplified JS `Number(...)` coercion of a string: the empty string coerces
to `0`, a string of decimal digits with an optional leading minus sign to that
integer, anything else to NaN.  (Fractional, exponent and whitespace forms of
JS numeric strings are not modelled; no claim depends on them.) -/
def strToNum (s : String) : Option ℚ :=
  if s = "" then some 0
  else
    let core := if s.startsWith "-" then s.drop 1 else s
    if core ≠ "" ∧ core.toList.all (fun c => c.isDigit) then
      let n : ℕ := core.toList.foldl (fun acc c => 10 * acc + (c.toNat - 48)) 0
      some (if s.startsWith "-" then -(n : ℚ) else (n : ℚ))
    else none

/-- JS `Number(...)` coercion of a value; `none` models NaN.  `Number(null)`
is `0`, `Number(undefined)` is NaN, and an array coerces through its string
form: `[]` to `0`, a singleton to the coercion of its element, a longer array
to NaN. -/
def toNumOpt : Value → Option ℚ
  | .num q => some q
  | .nan => none
  | .str s => strToNum s
  | .null => some 0
  | .undefined => none
  | .arr [] => some 0
  | .arr [v] => toNumOpt v
  | .arr (_ :: _ :: _) => none

/-- JS global `isNaN(v)`: true exactly when `Number(v)` is NaN. -/
def jsIsNaN (v : Value) : Bool :=
  (toNumOpt v).isNone

/-- JS strict equality `===` on the modelled values.  `NaN === x` is false for
every `x`, including NaN itself.  Arrays compare by reference, so two
separately constructed array values are never `===`; the filters of this
library are built from fresh literals, hence array-valued filter entries never
match and the model returns false for a pair of arrays. -/
def jsEq : Value → Value → Bool
  | .num a, .num b => a == b
  | .str a, .str b => a == b
  | .null, .null => true
  | .undefined, .undefined => true
  | _, _ => false

/-- The validation condition of `validateAndAdd`, stated positively: the check
in the source is `!Array.isArray(obj.embedding) || obj.embedding.some(isNaN)`
and throws when it holds, so a record is accepted exactly when its `embedding`
field is an array none of whose elements is `isNaN`. -/
def embeddingOk : Value → Bool
  | .arr elems => elems.all (fun v => !(jsIsNaN v))
  | _ => false

/-- The in-memory state of an `EmbeddingIndex`: the record sequence
(`this.objects`) and the established schema (`this.keys`). -/
structure EmbeddingIndex where
  objects : List JSObject
  keys : List String

/-- An `EmbeddingIndex` as built by `new EmbeddingIndex()`. -/
def emptyIndex : EmbeddingIndex :=
  { objects := [], keys := [] }

def errInvalidEmbedding : String :=
  "Object must have an embedding property of type number[]"

def errSchemaMismatch : String :=
  "Object must have the same properties as the initial objects"

def errNotFound : String :=
  "Vector not found"

/-- Method `validateAndAdd(obj)`: throws when the embedding check fails; on an
empty schema establishes `keys` from the record's field names; otherwise
throws when some established field name is missing from the record; finally
pushes the record. -/
def validateAndAdd (idx : EmbeddingIndex) (obj : JSObject) :
    Except String Unit × EmbeddingIndex :=
  if ¬ (embeddingOk (fieldOf obj "embedding") = true) then
    (.error errInvalidEmbedding, idx)
  else if idx.keys.length = 0 then
    (.ok (), { objects := idx.objects ++ [obj], keys := objKeys obj })
  else if ¬ (idx.keys.all (fun key => hasKey obj key) = true) then
    (.error errSchemaMismatch, idx)
  else
    (.ok (), { idx with objects := idx.objects ++ [obj] })

/-- Method `add(obj)`: delegates to `validateAndAdd`. -/
def add (idx : EmbeddingIndex) (obj : JSObject) :
    Except String Unit × EmbeddingIndex :=
  validateAndAdd idx obj

/-- The filter predicate used by `update`, `remove`, `removeBatch`, `get` and
`search`: `Object.keys(filter).every((key) => object[key] === filter[key])`. -/
def matchesFilter (filter : JSObject) (obj : JSObject) : Bool :=
  (objKeys filter).all (fun key => jsEq (fieldOf obj key) (fieldOf filter key))

/-- Method `update(filter, vector)`: finds the first matching record position
(`findIndex`), throws when there is none, then runs `validateAndAdd(vector)` —
which pushes `vector` at the end — and then overwrites the found position with
`vector`. -/
def update (idx : EmbeddingIndex) (filter vector : JSObject) :
    Except String Unit × EmbeddingIndex :=
  match idx.objects.findIdx? (fun o => matchesFilter filter o) with
  | none => (.error errNotFound, idx)
  | some i =>
    match validateAndAdd idx vector with
    | (.error e, idx') => (.error e, idx')
    | (.ok _, idx') => (.ok (), { idx' with objects := idx'.objects.set i vector })

/-- Method `remove(filter)`: finds the first matching record position, throws
when there is none, and splices that one record out. -/
def remove (idx : EmbeddingIndex) (filter : JSObject) :
    Except String Unit × EmbeddingIndex :=
  match idx.objects.findIdx? (fun o => matchesFilter filter o) with
  | none => (.error errNotFound, idx)
  | some i => (.ok (), { idx with objects := idx.objects.eraseIdx i })

/-- Method `removeBatch(filters)`: for each filter in order, splices out the
first record currently matching it, when one exists; a filter with no match is
skipped without an error. -/
def removeBatch (idx : EmbeddingIndex) (filters : List JSObject) : EmbeddingIndex :=
  filters.foldl
    (fun cur filter =>
      match cur.objects.findIdx? (fun o => matchesFilter filter o) with
      | none => cur
      | some i => { cur with objects := cur.objects.eraseIdx i })
    idx

/-- Method `get(filter)`: the first matching record, `null` (here `none`) when
there is none. -/
def get (idx : EmbeddingIndex) (filter : JSObject) : Option JSObject :=
  idx.objects.find? (fun o => matchesFilter filter o)

def errLengthMismatch : String :=
  "Vectors must have the same length"

/-- The dot product `vecA.reduce((sum, a, i) => sum + a * vecB[i], 0)`.  The
source guards each `vecB[i]` with `b !== undefined ? b : 0`; the guard only
fires for out-of-range indexes, which cannot occur once the lengths are equal,
so pairing the two vectors with `zip` is exact. -/
def dotProduct (vecA vecB : List ℚ) : ℚ :=
  (vecA.zip vecB).foldl (fun sum ab => sum + ab.1 * ab.2) 0

/-- The radicand of a magnitude: `vec.reduce((sum, a) => sum + a * a, 0)`. -/
def sumSq (v : List ℚ) : ℚ :=
  v.foldl (fun sum a => sum + a * a) 0

/-- Function `cosineSimilarity(vecA, vecB, precision)`.  The vectors are taken
as exact rationals (the numeric case; arithmetic on non-numeric entries would
produce the unrepresentable float NaN and is handled at the call site in
`search`).  `Math.sqrt` is abstracted as the parameter `rsqrt` and the
`parseFloat((x).toFixed(precision))` rounding as the parameter `roundp`;
theorems state the properties of the real operations they rely on as
hypotheses (for instance IEEE-754 `sqrt` returns `0` exactly on `±0`).  The
source throws on a length mismatch, returns `0` when either computed magnitude
is `0`, and otherwise returns the rounded quotient. -/
def cosineSimilarity (rsqrt : ℚ → ℚ) (roundp : ℕ → ℚ → ℚ)
    (vecA vecB : List ℚ) (precision : ℕ) : Except String ℚ :=
  if ¬ (vecA.length = vecB.length) then
    .error errLengthMismatch
  else
    let dot := dotProduct vecA vecB
    let magnitudeA := rsqrt (sumSq vecA)
    let magnitudeB := rsqrt (sumSq vecB)
    if magnitudeA = 0 ∨ magnitudeB = 0 then
      .ok 0
    else
      .ok (roundp precision (dot / (magnitudeA * magnitudeB)))

/-- One element of the list returned by `search`: `{similarity, object}`. -/
structure SimilarityResult where
  similarity : ℚ
  object : JSObject

/-- Coercion of every entry of a list of values to a number; `none` as soon as
one entry coerces to NaN. -/
def numsOf : List Value → Option (List ℚ)
  | [] => some []
  | v :: rest =>
    match toNumOpt v, numsOf rest with
    | some q, some qs => some (q :: qs)
    | _, _ => none

/-- A record's `embedding` field as the list of numbers JS arithmetic would
use: the field must be an array and every entry must coerce to a number.  An
entry coercing to NaN would make the similarity the unrepresentable float NaN;
the model signals this case (and a non-array field, on which the source would
throw a `TypeError` reading `.length`) as an error instead. -/
def asNumberArray : Value → Option (List ℚ)
  | .arr elems => numsOf elems
  | _ => none

/-- The comparator `(a, b) => b.similarity - a.similarity` passed to
`Array.prototype.sort`, as the "may stay before" Boolean relation: `x` may
stay before `y` exactly when the comparator value `y.similarity - x.similarity`
is not positive. -/
def simLE (x y : SimilarityResult) : Bool :=
  decide (y.similarity ≤ x.similarity)

/-- One step of the `.map((obj) => ({similarity: cosineSimilarity(...), object: obj}))`
stage of `search`: `cosineSimilarity` is called with the default precision 6. -/
def scoreRecord (rsqrt : ℚ → ℚ) (roundp : ℕ → ℚ → ℚ)
    (queryEmbedding : List ℚ) (obj : JSObject) : Except String SimilarityResult :=
  match asNumberArray (fieldOf obj "embedding") with
  | none => .error "embedding is not a numeric array"
  | some emb =>
    (cosineSimilarity rsqrt roundp queryEmbedding emb 6).map
      (fun s => { similarity := s, object := obj })

/-- Method `search(queryEmbedding, options)`.  `options.topK || 3` makes a
`topK` of `0` (falsy in JS) fall back to the default `3`; `options.filter || {}`
only replaces a missing filter (an empty object is truthy).  The records are
filtered, scored (a throwing `cosineSimilarity` aborts the whole call), sorted
by the descending-similarity comparator — JS `sort` is stable, which for this
consistent comparator is exactly stable merge sort — and cut to the first
`topK`. -/
def scoreAll (rsqrt : ℚ → ℚ) (roundp : ℕ → ℚ → ℚ) (queryEmbedding : List ℚ) :
    List JSObject → Except String (List SimilarityResult)
  | [] => .ok []
  | o :: rest =>
    match scoreRecord rsqrt roundp queryEmbedding o with
    | .error e => .error e
    | .ok r =>
      match scoreAll rsqrt roundp queryEmbedding rest with
      | .error e => .error e
      | .ok rs => .ok (r :: rs)

/-- Method `search(queryEmbedding, options)` body; `scoreAll` above is its
`.map` stage. -/
def search (rsqrt : ℚ → ℚ) (roundp : ℕ → ℚ → ℚ) (idx : EmbeddingIndex)
    (queryEmbedding : List ℚ) (topK? : Option ℕ) (filter? : Option JSObject) :
    Except String (List SimilarityResult) :=
  let topK : ℕ :=
    match topK? with
    | none => 3
    | some 0 => 3
    | some k => k
  let filter := filter?.getD []
  let survivors := idx.objects.filter (fun o => matchesFilter filter o)
  match scoreAll rsqrt roundp queryEmbedding survivors with
  | .error e => .error e
  | .ok similarities => .ok ((similarities.mergeSort simLE).take topK)

/-! ### The persistence layer (`DynamicDB`)

The module creates one fresh in-memory `IDBFactory` at load time.  The model
below covers one `DynamicDB` instance driving that factory from its fresh
state, which is the situation of the round-trip claims; the connection state
and the database content are carried together in one structure. -/

/-- State of a `DynamicDB` instance together with the database it drives.
`dbOpen` is whether `this.db` is non-null; `storeNames` are the object stores
existing in the database; `handles` are the keys of the `this.objectStores`
cache (only stores this instance created during an upgrade are cached);
`stores` is the persisted content per store in key order; `pending` holds the
insertions whose readwrite transactions the event loop has not yet run. -/
structure DynamicDB where
  dbOpen : Bool
  version : ℕ
  storeNames : List String
  handles : List String
  stores : List (String × List JSObject)
  pending : List (String × JSObject)

/-- A `DynamicDB` as built by `new DynamicDB()` against the fresh factory. -/
def freshDB : DynamicDB :=
  { dbOpen := false, version := 1, storeNames := [], handles := [],
    stores := [], pending := [] }

def errDbNotInit : String :=
  "Database not initialized"

def errStoreNotInit : String :=
  "Object store not initialized"

/-- Method `initializeDB(name)`: resolves immediately when a connection is
already open; otherwise opens the database.  Against the fresh in-memory
factory the open succeeds (the upgrade callback creates an empty database). -/
def initializeDB (db : DynamicDB) (dbname : String) :
    Except String Unit × DynamicDB :=
  if db.dbOpen then (.ok (), db)
  else
    let _ := dbname
    (.ok (), { db with dbOpen := true })

/-- Methods `makeObjectStore(name)` / `createNewVersion(name)`: throws when no
connection is open; otherwise bumps the version and reopens; during the
upgrade the store is created when absent — caching its handle in
`this.objectStores` — while an existing store is left as it is (a logged
no-op whose handle is NOT cached). -/
def makeObjectStore (db : DynamicDB) (storeName : String) :
    Except String Unit × DynamicDB :=
  if ¬ (db.dbOpen = true) then (.error errDbNotInit, db)
  else
    let db' := { db with version := db.version + 1 }
    if db'.storeNames.contains storeName then (.ok (), db')
    else
      (.ok (), { db' with
        storeNames := db'.storeNames ++ [storeName],
        handles := db'.handles ++ [storeName],
        stores := db'.stores ++ [(storeName, [])] })

/-- Method `addToDB(name, obj)`: the synchronous part rejects when the
connection or the cached store handle is missing; otherwise it opens a
readwrite transaction and issues an `add` request whose completion the event
loop signals later — modelled by queueing the insertion on `pending`. -/
def addToDB (db : DynamicDB) (storeName : String) (obj : JSObject) :
    Except String Unit × DynamicDB :=
  if ¬ (db.dbOpen = true) then (.error errDbNotInit, db)
  else if ¬ (db.handles.contains storeName = true) then (.error errStoreNotInit, db)
  else (.ok (), { db with pending := db.pending ++ [(storeName, obj)] })

/-- One queued insertion settling: the record is appended to its store. -/
def commitInsert (stores : List (String × List JSObject))
    (storeName : String) (obj : JSObject) : List (String × List JSObject) :=
  stores.map (fun p => if p.1 = storeName then (p.1, p.2 ++ [obj]) else p)

/-- The event loop running the queued readwrite transactions to completion, in
issue order.  IndexedDB starts transactions of overlapping scope in creation
order, so all pending insertions settle before any transaction created after
them can read the store. -/
def settlePending (db : DynamicDB) : DynamicDB :=
  { db with
    stores := db.pending.foldl (fun s p => commitInsert s p.1 p.2) db.stores,
    pending := [] }

/-- Method `dbGenerator(objectStoreName)`: throws `Database not initialized`
when no connection is open; otherwise drives a forward cursor over the store,
yielding its records in key (= insertion) order.  Opening a transaction on a
store absent from the database throws the engine's `NotFoundError`. -/
def dbGenerator (db : DynamicDB) (storeName : String) :
    Except String (List JSObject) :=
  if ¬ (db.dbOpen = true) then .error errDbNotInit
  else
    match db.stores.find? (fun p => p.1 == storeName) with
    | some p => .ok p.2
    | none => .error "NotFoundError"

def errEmptyIndex : String :=
  "Index is empty"

def errSavingIndex : String :=
  "Error saving index to database"

/-- Method `saveIndexToDB(DBname, objectStoreName)`: rejects on an empty index;
otherwise initializes the connection and ensures the object store exists (a
failure of either is caught and rejected with the wrapped message); then
issues one `addToDB` call per record inside a `forEach` — the promises these
calls return are neither awaited nor observed — and calls `resolve()`
immediately afterwards, while every issued insertion is still pending. -/
def saveIndexToDB (idx : EmbeddingIndex) (db : DynamicDB)
    (dbname storeName : String) : Except String Unit × DynamicDB :=
  if idx.objects.isEmpty then (.error errEmptyIndex, db)
  else
    match initializeDB db dbname with
    | (.error _, db') => (.error errSavingIndex, db')
    | (.ok _, db') =>
      match makeObjectStore db' storeName with
      | (.error _, db'') => (.error errSavingIndex, db'')
      | (.ok _, db'') =>
        (.ok (), idx.objects.foldl (fun cur obj => (addToDB cur storeName obj).2) db'')

/-- Method `loadIndexFromDB(objectStoreName)`: first clears `this.objects`,
then drives the cursor generator of this instance's own `DynamicDB` — nothing
in the method opens the connection, so on a freshly constructed index the
generator throws before yielding anything. -/
def loadIndexFromDB (idx : EmbeddingIndex) (db : DynamicDB) (storeName : String) :
    Except String Unit × EmbeddingIndex :=
  let cleared := { idx with objects := ([] : List JSObject) }
  match dbGenerator db storeName with
  | .error e => (.error e, cleared)
  | .ok records => (.ok (), { cleared with objects := records })

/-! ### Concrete fixtures

Small concrete records and indexes used by witnesses and counterexamples, and
concrete stand-ins for the abstracted floating-point operations: `idQ` (used
where only the values `0` and `1` are ever taken, on which the identity agrees
with the real square root) and `noRound` (rounding at a precision exceeding
the digits present is the identity). -/

def recA : JSObject := [("id", .num 1), ("embedding", .arr [.num 1])]

def recB : JSObject := [("id", .num 2), ("embedding", .arr [.num 0])]

def recNew : JSObject := [("id", .num 9), ("embedding", .arr [.num 3])]

def idxA : EmbeddingIndex := { objects := [recA], keys := ["id", "embedding"] }

def idxAB : EmbeddingIndex := { objects := [recA, recB], keys := ["id", "embedding"] }

def idQ : ℚ → ℚ := fun q => q

def noRound : ℕ → ℚ → ℚ := fun _ x => x

/-! ### Helper lemmas -/

/-- A throwing `validateAndAdd` leaves the index untouched: every `throw` in
its body happens before the `push`. -/
theorem validateAndAdd_state_on_error (idx : EmbeddingIndex) (obj : JSObject)
    (e : String) (h : (validateAndAdd idx obj).1 = .error e) :
    (validateAndAdd idx obj).2 = idx := by
  unfold validateAndAdd at h ⊢
  split_ifs at h ⊢ <;> simp_all

/-- A throwing `update` leaves the index untouched. -/
theorem update_state_on_error (idx : EmbeddingIndex) (filter vector : JSObject)
    (e : String) (h : (update idx filter vector).1 = .error e) :
    (update idx filter vector).2 = idx := by
  unfold update at h ⊢
  generalize hfi : idx.objects.findIdx? (fun o => matchesFilter filter o) = fi at h ⊢
  cases fi with
  | none => simp
  | some i =>
    generalize hva : validateAndAdd idx vector = va at h ⊢
    obtain ⟨r, idx'⟩ := va
    cases r with
    | error e' =>
      have ha : (validateAndAdd idx vector).2 = idx :=
        validateAndAdd_state_on_error idx vector e' (by rw [hva])
      rw [hva] at ha
      simpa using ha
    | ok u => simp at h

/-- A throwing `remove` leaves the index untouched. -/
theorem remove_state_on_error (idx : EmbeddingIndex) (filter : JSObject)
    (e : String) (h : (remove idx filter).1 = .error e) :
    (remove idx filter).2 = idx := by
  unfold remove at h ⊢
  cases hf : idx.objects.findIdx? (fun o => matchesFilter filter o) with
  | none => simp [hf]
  | some i => rw [hf] at h; cases h

/-! ### Claim theorems -/

/-- C9: whenever `add`, `update` or `remove` throws, the record sequence and
the established schema are exactly as they were before the call — every
validation or lookup failure happens before any mutation. -/
theorem mutation_errors_preserve_index (idx : EmbeddingIndex)
    (obj filter vector : JSObject) (e : String) :
    ((add idx obj).1 = .error e → (add idx obj).2 = idx) ∧
    ((update idx filter vector).1 = .error e → (update idx filter vector).2 = idx) ∧
    ((remove idx filter).1 = .error e → (remove idx filter).2 = idx) :=
  ⟨fun h => validateAndAdd_state_on_error idx obj e h,
   fun h => update_state_on_error idx filter vector e h,
   fun h => remove_state_on_error idx filter e h⟩

/-- Witness for C9 at a concrete input: a filter matching nothing makes
`update` throw `Vector not found` and the index is left intact. -/
theorem mutation_errors_preserve_index_witness :
    (update idxA [("nope", Value.num 5)] recNew).2 = idxA :=
  (mutation_errors_preserve_index idxA recNew [("nope", Value.num 5)] recNew
    errNotFound).2.1 (by rfl)

/-- C10: the empty filter `{}` has no key/value pairs, so every record matches
it vacuously; `get({})` returns the first record in insertion order (`null` on
an empty index) and `remove({})` deletes the first record instead of
failing. -/
theorem empty_filter_selects_first (idx : EmbeddingIndex) (o : JSObject)
    (rest : List JSObject) :
    (matchesFilter [] o = true) ∧
    (idx.objects = o :: rest →
      get idx [] = some o ∧
      remove idx [] = (.ok (), { idx with objects := rest })) ∧
    (idx.objects = [] → get idx [] = none) := by
  refine ⟨rfl, fun h => ⟨?_, ?_⟩, fun h => ?_⟩
  · unfold get
    rw [h]
    rfl
  · unfold remove
    rw [h]
    rfl
  · simp [get, h]

/-- Witness for C10 at a concrete input. -/
theorem empty_filter_selects_first_witness :
    get idxAB [] = some recA ∧
    remove idxAB [] = (.ok (), { idxAB with objects := [recB] }) :=
  (empty_filter_selects_first idxAB recA [recB]).2.1 rfl

/-- C3 (code bug): on the concrete index holding one record with `id` 1,
`update({id: 1}, newRecord)` does not replace in place preserving length —
`validateAndAdd` pushes `newRecord` to the end and the assignment then also
overwrites position 0, so the sequence grows to length 2 and holds the new
record twice. -/
theorem update_appends_and_overwrites :
    update idxA [("id", Value.num 1)] recNew =
      (.ok (), { objects := [recNew, recNew], keys := ["id", "embedding"] }) ∧
    (update idxA [("id", Value.num 1)] recNew).2.objects.length =
      idxA.objects.length + 1 := by
  constructor <;> rfl

/-- C5 (code bug): the record `{id: 3, embedding: [null]}` has an embedding
that is not a sequence of numbers, yet `validateAndAdd` accepts and appends
it, because the check uses the coercing JS `isNaN` and `Number(null)` is `0`.
The code's own error message promises an `embedding property of type
number[]`. -/
theorem validateAndAdd_accepts_null_entry :
    jsIsNaN Value.null = false ∧
    validateAndAdd emptyIndex [("id", .num 3), ("embedding", .arr [.null])] =
      (.ok (), { objects := [[("id", .num 3), ("embedding", .arr [.null])]],
                 keys := ["id", "embedding"] }) := by
  constructor <;> rfl

/-- C8: `remove` and `removeBatch` share the match rule but differ on a
non-matching filter: `remove` throws `Vector not found` (leaving the index as
it was), while `removeBatch` silently skips that filter and goes on; on a
filter whose first match sits at position `i`, both delete exactly that
record. -/
theorem remove_vs_removeBatch (idx : EmbeddingIndex) (f : JSObject)
    (fs : List JSObject) :
    ((∀ o ∈ idx.objects, matchesFilter f o = false) →
      remove idx f = (.error errNotFound, idx) ∧
      removeBatch idx (f :: fs) = removeBatch idx fs) ∧
    (∀ i, ∀ hi : i < idx.objects.length,
      matchesFilter f (idx.objects.get ⟨i, hi⟩) = true →
      (∀ j, ∀ hj : j < i, matchesFilter f (idx.objects.get ⟨j, Nat.lt_trans hj hi⟩) = false) →
      remove idx f = (.ok (), { idx with objects := idx.objects.eraseIdx i }) ∧
      removeBatch idx (f :: fs) =
        removeBatch { idx with objects := idx.objects.eraseIdx i } fs) := by
  constructor
  · intro h
    have hnone : idx.objects.findIdx? (fun o => matchesFilter f o) = none := by
      rw [List.findIdx?_eq_none_iff]
      exact h
    constructor
    · unfold remove
      rw [hnone]
    · unfold removeBatch
      rw [List.foldl_cons, hnone]
  · intro i hi hp hprev
    have hsome : idx.objects.findIdx? (fun o => matchesFilter f o) = some i := by
      rw [List.findIdx?_eq_some_iff_getElem]
      refine ⟨hi, ?_, ?_⟩
      · simpa [List.get_eq_getElem] using hp
      · intro j hj
        simpa [List.get_eq_getElem] using hprev j hj
    constructor
    · unfold remove
      rw [hsome]
    · unfold removeBatch
      rw [List.foldl_cons, hsome]

/-- Witness for C8 at concrete inputs: on the two-record index, the filter
`{id: 2}` matches only the second record (position 1); `remove` deletes it,
and `removeBatch` on the singleton filter list deletes it and continues with
the remaining (empty) list. -/
theorem remove_vs_removeBatch_witness :
    remove idxAB [("id", Value.num 2)] = (.ok (), { idxAB with objects := [recA] }) ∧
    removeBatch idxAB [[("id", Value.num 2)]] =
      removeBatch { idxAB with objects := [recA] } [] := by
  have h := (remove_vs_removeBatch idxAB [("id", Value.num 2)] []).2 1 (by decide)
    (by rfl) (fun j hj => by
      interval_cases j
      rfl)
  simpa using h

/-- C6: the first added record establishes the schema as its field names;
afterwards, a record with a valid embedding is rejected with the schema
mismatch error exactly when it lacks at least one established field name,
while a record carrying all established names — extra names included — is
appended with the schema unchanged. -/
theorem validateAndAdd_schema_enforcement (idx : EmbeddingIndex) (obj : JSObject)
    (hemb : embeddingOk (fieldOf obj "embedding") = true) :
    (idx.keys = [] →
      validateAndAdd idx obj =
        (.ok (), { objects := idx.objects ++ [obj], keys := objKeys obj })) ∧
    (idx.keys ≠ [] →
      (((validateAndAdd idx obj).1 = .error errSchemaMismatch) ↔
        ∃ key ∈ idx.keys, hasKey obj key = false) ∧
      ((∀ key ∈ idx.keys, hasKey obj key = true) →
        validateAndAdd idx obj =
          (.ok (), { idx with objects := idx.objects ++ [obj] }))) := by
  have hne : ¬ ¬ (embeddingOk (fieldOf obj "embedding") = true) := by simp [hemb]
  constructor
  · intro hk
    have hlen : idx.keys.length = 0 := by simp [hk]
    unfold validateAndAdd
    rw [if_neg hne, if_pos hlen]
  · intro hk
    have hlen : ¬ (idx.keys.length = 0) := by simpa using hk
    have hiff : ((validateAndAdd idx obj).1 = .error errSchemaMismatch) ↔
        ¬ (idx.keys.all (fun key => hasKey obj key) = true) := by
      unfold validateAndAdd
      rw [if_neg hne, if_neg hlen]
      by_cases hall : idx.keys.all (fun key => hasKey obj key) = true
      · rw [if_neg (by simp [hall])]
        simp [hall]
      · rw [if_pos (by simpa using hall)]
        simp [hall]
    constructor
    · rw [hiff]
      simp only [List.all_eq_true]
      push_neg
      simp only [Bool.not_eq_true]
    · intro hall
      have hall' : idx.keys.all (fun key => hasKey obj key) = true := by
        rw [List.all_eq_true]
        exact hall
      unfold validateAndAdd
      rw [if_neg hne, if_neg hlen, if_neg (by simp [hall'])]

/-- Witness for C6 at a concrete input: a record carrying the established
`id` and `embedding` fields plus an extra field is accepted and the schema is
unchanged. -/
theorem validateAndAdd_schema_enforcement_witness :
    validateAndAdd idxA
        [("id", .num 2), ("embedding", .arr [.num 0]), ("extra", .str "x")] =
      (.ok (), { idxA with objects :=
        idxA.objects ++ [[("id", .num 2), ("embedding", .arr [.num 0]), ("extra", .str "x")]] }) :=
  ((validateAndAdd_schema_enforcement idxA
      [("id", .num 2), ("embedding", .arr [.num 0]), ("extra", .str "x")]
      (by rfl)).2 (by simp [idxA])).2 (by decide)

/-- Summing squares over an all-zero list leaves the accumulator unchanged. -/
theorem foldl_sumsq_all_zero (v : List ℚ) (c : ℚ)
    (h : v.all (fun a => a == 0) = true) :
    v.foldl (fun sum a => sum + a * a) c = c := by
  induction v generalizing c with
  | nil => rfl
  | cons a t ih =>
    simp only [List.all_cons, Bool.and_eq_true] at h
    obtain ⟨ha, ht⟩ := h
    have ha' : a = 0 := by simpa using ha
    rw [List.foldl_cons, ha']
    simpa using ih (c + 0 * 0) ht

/-- The radicand of an all-zero vector is `0`. -/
theorem sumSq_all_zero (v : List ℚ) (h : v.all (fun a => a == 0) = true) :
    sumSq v = 0 :=
  foldl_sumsq_all_zero v 0 h

/-- C7: for equal-length vectors and any precision, `cosineSimilarity` returns
`0` whenever either computed magnitude is zero, instead of dividing by zero;
in particular — since the square root of `0` is `0`, as for the IEEE-754
`Math.sqrt` — it returns `0` whenever either vector is all-zero. -/
theorem cosineSimilarity_zero_magnitude (rsqrt : ℚ → ℚ) (roundp : ℕ → ℚ → ℚ)
    (precision : ℕ) (vecA vecB : List ℚ) (hlen : vecA.length = vecB.length) :
    ((rsqrt (sumSq vecA) = 0 ∨ rsqrt (sumSq vecB) = 0) →
      cosineSimilarity rsqrt roundp vecA vecB precision = .ok 0) ∧
    (rsqrt 0 = 0 →
      (vecA.all (fun a => a == 0) = true ∨ vecB.all (fun b => b == 0) = true) →
      cosineSimilarity rsqrt roundp vecA vecB precision = .ok 0) := by
  have hmain : (rsqrt (sumSq vecA) = 0 ∨ rsqrt (sumSq vecB) = 0) →
      cosineSimilarity rsqrt roundp vecA vecB precision = .ok 0 := by
    intro hmag
    simp only [cosineSimilarity]
    rw [if_neg (not_not_intro hlen), if_pos hmag]
  refine ⟨hmain, fun hz hall => hmain ?_⟩
  cases hall with
  | inl h => exact Or.inl (by rw [sumSq_all_zero vecA h, hz])
  | inr h => exact Or.inr (by rw [sumSq_all_zero vecB h, hz])

/-- Witness for C7 at a concrete input: the all-zero one-entry vector against
`[1]` yields similarity `0` (on the radicands `0` and `1` arising here, the
identity stand-in `idQ` agrees with the real square root). -/
theorem cosineSimilarity_zero_magnitude_witness :
    cosineSimilarity idQ noRound [(0 : ℚ)] [1] 6 = .ok 0 :=
  (cosineSimilarity_zero_magnitude idQ noRound 6 [0] [1] rfl).2 rfl (Or.inl (by rfl))

/-- Equal lengths rule out the only `throw` of `cosineSimilarity`: the call
returns some value. -/
theorem cosineSimilarity_ok_of_length (rsqrt : ℚ → ℚ) (roundp : ℕ → ℚ → ℚ)
    (precision : ℕ) (vecA vecB : List ℚ) (hlen : vecA.length = vecB.length) :
    ∃ s, cosineSimilarity rsqrt roundp vecA vecB precision = .ok s := by
  simp only [cosineSimilarity]
  rw [if_neg (not_not_intro hlen)]
  by_cases hm : rsqrt (sumSq vecA) = 0 ∨ rsqrt (sumSq vecB) = 0
  · rw [if_pos hm]
    exact ⟨0, rfl⟩
  · rw [if_neg hm]
    exact ⟨_, rfl⟩

/-- When every record in the list carries a numeric embedding array of the
query's length, the scoring stage succeeds and pairs each record, in order,
with its similarity. -/
theorem scoreAll_ok (rsqrt : ℚ → ℚ) (roundp : ℕ → ℚ → ℚ) (q : List ℚ)
    (l : List JSObject)
    (h : ∀ o ∈ l, ∃ e, asNumberArray (fieldOf o "embedding") = some e ∧
      e.length = q.length) :
    ∃ scored, scoreAll rsqrt roundp q l = .ok scored ∧
      scored.map (fun r => r.object) = l := by
  induction l with
  | nil => exact ⟨[], rfl, rfl⟩
  | cons o t ih =>
    obtain ⟨e, he, hel⟩ := h o (List.mem_cons_self o t)
    obtain ⟨s, hs⟩ := cosineSimilarity_ok_of_length rsqrt roundp 6 q e hel.symm
    obtain ⟨scored, hsc, hmap⟩ := ih (fun o' ho' => h o' (List.mem_cons_of_mem o ho'))
    refine ⟨{ similarity := s, object := o } :: scored, ?_, ?_⟩
    · simp only [scoreAll, scoreRecord, he, hs, hsc, Except.map]
    · simp [hmap]

/-- Transitivity of the sort comparator relation. -/
theorem simLE_trans (a b c : SimilarityResult) (hab : simLE a b) (hbc : simLE b c) :
    simLE a c = true := by
  simp only [simLE, decide_eq_true_eq] at *
  exact le_trans hbc hab

/-- Totality of the sort comparator relation. -/
theorem simLE_total (a b : SimilarityResult) : simLE a b || simLE b a := by
  simp only [simLE, Bool.or_eq_true, decide_eq_true_eq]
  exact le_total b.similarity a.similarity

/-- C1 (amended): for every positive `topK` and every index whose records
surviving the filter carry numeric embeddings of the query's length, `search`
succeeds and returns the first `topK` entries of a sorted permutation of the
survivors, each paired with its similarity, in non-increasing similarity
order, and the result length is `min topK (number of survivors)` — a `topK`
exceeding the survivor count returns all survivors.  (`topK` equal to `0`
instead falls back to the default 3, see the counterexample.) -/
theorem search_filters_sorts_truncates (rsqrt : ℚ → ℚ) (roundp : ℕ → ℚ → ℚ)
    (idx : EmbeddingIndex) (q : List ℚ) (k : ℕ) (f : JSObject)
    (hk : 1 ≤ k)
    (hemb : ∀ o ∈ idx.objects, matchesFilter f o = true →
      ∃ e, asNumberArray (fieldOf o "embedding") = some e ∧ e.length = q.length) :
    ∃ scored : List SimilarityResult, ∃ sortedAll : List SimilarityResult,
      scoreAll rsqrt roundp q (idx.objects.filter (fun o => matchesFilter f o)) =
        .ok scored ∧
      scored.map (fun r => r.object) =
        idx.objects.filter (fun o => matchesFilter f o) ∧
      sortedAll.Perm scored ∧
      sortedAll.Pairwise (fun x y => y.similarity ≤ x.similarity) ∧
      search rsqrt roundp idx q (some k) (some f) = .ok (sortedAll.take k) ∧
      (sortedAll.take k).length =
        min k (idx.objects.filter (fun o => matchesFilter f o)).length := by
  have hfil : ∀ o ∈ idx.objects.filter (fun o => matchesFilter f o),
      ∃ e, asNumberArray (fieldOf o "embedding") = some e ∧ e.length = q.length := by
    intro o ho
    rw [List.mem_filter] at ho
    exact hemb o ho.1 ho.2
  obtain ⟨scored, hsc, hmap⟩ := scoreAll_ok rsqrt roundp q _ hfil
  have hlen : scored.length =
      (idx.objects.filter (fun o => matchesFilter f o)).length := by
    rw [← hmap, List.length_map]
  refine ⟨scored, scored.mergeSort simLE, hsc, hmap,
    List.mergeSort_perm scored simLE, ?_, ?_, ?_⟩
  · have hp := @List.sorted_mergeSort SimilarityResult simLE
      (fun a b c hab hbc => simLE_trans a b c hab hbc)
      (fun a b => simLE_total a b) scored
    exact hp.imp (fun hxy => by simpa [simLE] using hxy)
  · obtain ⟨k', rfl⟩ : ∃ k', k = k' + 1 := ⟨k - 1, by omega⟩
    simp only [search, Option.getD]
    rw [hsc]
  · rw [List.length_take, List.length_mergeSort, hlen]

/-- Witness for C1 at a concrete input: on the one-record index, `topK` 5
(larger than the survivor count) returns the single survivor with similarity
1, without error. -/
theorem search_filters_sorts_truncates_witness :
    search idQ noRound idxA [(1 : ℚ)] (some 5) (some []) =
      .ok [{ similarity := 1, object := recA }] := by
  obtain ⟨scored, sortedAll, hsc, hmap, hperm, hpair, hsearch, hlen⟩ :=
    search_filters_sorts_truncates idQ noRound idxA [(1 : ℚ)] 5 []
      (by omega)
      (by
        intro o ho hm
        have ho' : o = recA := by simpa [idxA] using ho
        exact ⟨[1], by rw [ho']; rfl, rfl⟩)
  have hconc : scoreAll idQ noRound [(1 : ℚ)]
      (idxA.objects.filter (fun o => matchesFilter [] o)) =
      .ok [{ similarity := 1, object := recA }] := by
    have hone : scoreRecord idQ noRound [(1 : ℚ)] recA =
        .ok { similarity := 1, object := recA } := by
      have h : asNumberArray (fieldOf recA "embedding") = some [(1 : ℚ)] := by rfl
      rw [scoreRecord, h]
      norm_num [cosineSimilarity, dotProduct, sumSq, idQ, noRound, Except.map]
    have hfil : idxA.objects.filter (fun o => matchesFilter [] o) = [recA] := by rfl
    rw [hfil]
    simp only [scoreAll, hone]
  rw [hconc] at hsc
  injection hsc with hval
  subst hval
  have hsall : sortedAll = [{ similarity := 1, object := recA }] :=
    List.perm_singleton.mp hperm
  rw [hsall] at hsearch
  simpa using hsearch

/-- C1 counterexample: the claim ranges over every non-negative `topK`, but
`options.topK || 3` treats the falsy `0` as absent: on the one-record index,
`search` with `topK` 0 returns 1 result, not `min 0 1 = 0`. -/
theorem search_topK_zero_counterexample :
    search idQ noRound idxA [(1 : ℚ)] (some 0) none =
      .ok [{ similarity := 1, object := recA }] ∧
    (idxA.objects.filter (fun o => matchesFilter [] o)).length = 1 ∧
    ¬ (([{ similarity := 1, object := recA }] : List SimilarityResult).length =
        min 0 1) := by
  refine ⟨?_, by rfl, by decide⟩
  have hone : scoreRecord idQ noRound [(1 : ℚ)] recA =
      .ok { similarity := 1, object := recA } := by
    have h : asNumberArray (fieldOf recA "embedding") = some [(1 : ℚ)] := by rfl
    rw [scoreRecord, h]
    norm_num [cosineSimilarity, dotProduct, sumSq, idQ, noRound, Except.map]
  have hfil : idxA.objects.filter (fun o => matchesFilter [] o) = [recA] := by rfl
  simp only [search, Option.getD, hfil, scoreAll, hone, List.mergeSort_singleton]
  rfl

/-- Folding the fire-and-forget `addToDB` calls of `saveIndexToDB` over an
open connection with a cached store handle queues every record, in order, on
the pending-insertions list. -/
theorem foldl_addToDB (objs : List JSObject) : ∀ db : DynamicDB, ∀ s : String,
    db.dbOpen = true → db.handles.contains s = true →
    objs.foldl (fun cur obj => (addToDB cur s obj).2) db =
      { db with pending := db.pending ++ objs.map (fun o => (s, o)) } := by
  induction objs with
  | nil => intro db s h1 h2; simp
  | cons o t ih =>
    intro db s h1 h2
    rw [List.foldl_cons]
    have hstep : (addToDB db s o).2 = { db with pending := db.pending ++ [(s, o)] } := by
      unfold addToDB
      rw [if_neg (not_not_intro h1), if_neg (not_not_intro h2)]
    rw [hstep, ih { db with pending := db.pending ++ [(s, o)] } s h1 h2]
    simp

/-- Settling queued insertions into a single store appends the queued records
in issue order. -/
theorem foldl_commitInsert (objs : List JSObject) : ∀ acc : List JSObject, ∀ s : String,
    (objs.map (fun o => (s, o))).foldl (fun st p => commitInsert st p.1 p.2)
        [(s, acc)] = [(s, acc ++ objs)] := by
  induction objs with
  | nil => intro acc s; simp
  | cons o t ih =>
    intro acc s
    simp only [List.map_cons, List.foldl_cons]
    have hc : commitInsert [(s, acc)] s o = [(s, acc ++ [o])] := by
      unfold commitInsert
      simp
    rw [hc, ih (acc ++ [o]) s]
    simp

/-- The `DynamicDB` state right after `initializeDB` opened the fresh
factory's database. -/
def openConnDB : DynamicDB :=
  { dbOpen := true, version := 1, storeNames := [], handles := [],
    stores := [], pending := [] }

/-- The `DynamicDB` state right after `makeObjectStore` created the store
named `storeName` during the version-2 upgrade. -/
def createdDB (storeName : String) : DynamicDB :=
  { dbOpen := true, version := 2, storeNames := [storeName],
    handles := [storeName], stores := [(storeName, [])], pending := [] }

/-- C2 (amended): saving a non-empty index from the fresh factory succeeds,
and once the queued insertions settle, the store holds exactly the original
records in order; reloading **on the same index instance** (whose connection
the save opened) then yields exactly the original record sequence.  A fresh
index instance instead fails, see the counterexample. -/
theorem save_then_load_roundtrip (objs : List JSObject) (keys : List String)
    (dbname storeName : String) (h : objs ≠ []) :
    ∃ db' : DynamicDB,
      saveIndexToDB ⟨objs, keys⟩ freshDB dbname storeName = (.ok (), db') ∧
      (settlePending db').stores = [(storeName, objs)] ∧
      loadIndexFromDB ⟨objs, keys⟩ (settlePending db') storeName =
        (.ok (), ⟨objs, keys⟩) := by
  have hne : (⟨objs, keys⟩ : EmbeddingIndex).objects.isEmpty = false := by
    cases objs with
    | nil => exact absurd rfl h
    | cons o t => rfl
  have h1 : initializeDB freshDB dbname = (.ok (), openConnDB) := rfl
  have h2 : makeObjectStore openConnDB storeName = (.ok (), createdDB storeName) := rfl
  have hsave : saveIndexToDB ⟨objs, keys⟩ freshDB dbname storeName =
      (.ok (), { createdDB storeName with
                 pending := objs.map (fun o => (storeName, o)) }) := by
    unfold saveIndexToDB
    rw [hne]
    simp only [Bool.false_eq_true, if_false, h1, h2]
    rw [foldl_addToDB objs (createdDB storeName) storeName rfl (by simp [createdDB])]
    simp [createdDB]
  have hsettle : settlePending { createdDB storeName with
                                 pending := objs.map (fun o => (storeName, o)) } =
      { createdDB storeName with stores := [(storeName, objs)] } := by
    unfold settlePending
    simp only [createdDB]
    rw [foldl_commitInsert objs [] storeName]
    simp
  refine ⟨_, hsave, ?_, ?_⟩
  · rw [hsettle]
  · rw [hsettle]
    unfold loadIndexFromDB dbGenerator
    simp [createdDB, List.find?]

/-- Witness for C2 (amended) at a concrete input: the one-record index saved
from the fresh factory and reloaded on the same instance after settlement
yields its record back. -/
theorem save_then_load_roundtrip_witness :
    loadIndexFromDB idxA
        (settlePending (saveIndexToDB idxA freshDB "defaultDB" "DefaultStore").2)
        "DefaultStore" = (.ok (), idxA) := by
  obtain ⟨db', hsave, hstores, hload⟩ :=
    save_then_load_roundtrip [recA] ["id", "embedding"] "defaultDB" "DefaultStore"
      (by simp)
  have hdb : (saveIndexToDB idxA freshDB "defaultDB" "DefaultStore").2 = db' := by
    rw [show saveIndexToDB idxA freshDB "defaultDB" "DefaultStore" =
      saveIndexToDB ⟨[recA], ["id", "embedding"]⟩ freshDB "defaultDB" "DefaultStore" from rfl,
      hsave]
  rw [hdb]
  exact hload

/-- The state of the `DynamicDB` after the concrete save of the C2
counterexample. -/
def savedDBState : DynamicDB :=
  (saveIndexToDB idxA freshDB "defaultDB" "DefaultStore").2

/-- A fresh `EmbeddingIndex` constructs a fresh `DynamicDB` wrapper: no open
connection (`this.db` is null), no cached store handles, version counter back
at 1 — while the factory still holds the previously saved records durably
(`stores` keeps the settled content). -/
def freshInstanceDB : DynamicDB :=
  { settlePending savedDBState with dbOpen := false, handles := [], version := 1 }

/-- C2 counterexample: after a successful save whose insertions settled into
the store, `loadIndexFromDB` **on a fresh index** rejects with `Database not
initialized` — nothing in `loadIndexFromDB` opens the fresh instance's
connection — and yields 0 records instead of the 1 saved record. -/
theorem loadIndexFromDB_fresh_instance_counterexample :
    (saveIndexToDB idxA freshDB "defaultDB" "DefaultStore").1 = .ok () ∧
    (settlePending savedDBState).stores = [("DefaultStore", [recA])] ∧
    (loadIndexFromDB emptyIndex freshInstanceDB "DefaultStore").1 =
      .error errDbNotInit ∧
    (loadIndexFromDB emptyIndex freshInstanceDB "DefaultStore").2.objects = [] := by
  exact ⟨rfl, rfl, rfl, rfl⟩

/-- C4 (code bug): on the concrete two-record index, `saveIndexToDB` from the
fresh factory fulfills with `ok` while **both** issued insertions are still
pending — the `forEach` neither awaits `addToDB` nor observes its promise, and
`resolve()` runs before any insertion settles, so a failing insertion could
never reject the already-fulfilled save. -/
theorem save_resolves_before_insertions_settle :
    (saveIndexToDB idxAB freshDB "defaultDB" "DefaultStore").1 = .ok () ∧
    (saveIndexToDB idxAB freshDB "defaultDB" "DefaultStore").2.pending =
      [("DefaultStore", recA), ("DefaultStore", recB)] := by
  exact ⟨rfl, rfl⟩

end ClientVectorSearch
